import Mathlib

/-! OpenHantek6022: the DSO-6022 model file

A shallow embedding of `openhantek/src/hantekdso/models/modelDSO6022.cpp`:
the function `initSpecifications`, which fills a `Dso::ControlSpecification`
from compiled constants and overlays the calibration values of a `QSettings`
store, the command binder `applyRequirements_`, and the device models
constructed in the file.

Conventions of the embedding.
* A C++ `double` is an exact rational (`ℚ`): rounding, infinities and NaN are
  outside the model. All literals of the file are decimal fractions.
* An `int` has 32 bits: it is an `Int` in the range from -2^31 to 2^31 - 1, and
  the one computation on it, `0x80 - offset`, wraps around modulo 2^32
  (`wrapInt32`). An `unsigned` that is only ever a literal is a `Nat`.
* A `std::vector` is a `List`; writing through an index that is out of bounds
  (undefined behaviour in C++) leaves the list unchanged.
* The preprocessor switches are fields of `Build`.
-/

namespace Hantek

/-! ## Qt: stored values and the settings object -/

/-- A value held by a `QVariant`, represented by what the two conversions used
in the file make of it. `asDouble` is the number `QVariant::toDouble` converts
it to and `asInt` the one `QVariant::toInt` converts it to; `none` means that
the conversion fails. -/
structure QVariant where
  asDouble : Option ℚ
  asInt : Option Int
deriving DecidableEq

/-- The conversion `QVariant::toDouble()`: the converted number, and `0.0` when
the conversion fails. -/
def QVariant.toDouble (v : QVariant) : ℚ := v.asDouble.getD 0

/-- The value of a 32 bit `int` that holds the number `n`: `n` itself when it is
in the range from -2^31 to 2^31 - 1, and `n` reduced modulo 2^32 into that
range otherwise. -/
def wrapInt32 (n : Int) : Int := (n + 2147483648) % 4294967296 - 2147483648

/-- The conversion `QVariant::toInt()`: the converted number as an `int`, and
`0` when the conversion fails. -/
def QVariant.toInt (v : QVariant) : Int := wrapInt32 (v.asInt.getD 0)

/-- The default `"0.0"` of the gain lookup: a string that is a double and not
an int. -/
def QVariant.gainDefault : QVariant := { asDouble := some 0, asInt := none }

/-- The default `"255"` of the offset lookup. -/
def QVariant.offsetDefault : QVariant := { asDouble := some 255, asInt := some 255 }

/-- The contents of the settings file: a partial map from hierarchical keys
(`gain/ch0/20mV` is the path `["gain", "ch0", "20mV"]`) to stored values. A
missing or unreadable file is the empty store. -/
abbrev Store := List String → Option QVariant

/-- The store without entries. -/
def Store.empty : Store := fun _ => none

/-- The store `S` with the entry at `key` set to `v`. -/
def Store.insert (S : Store) (key : List String) (v : QVariant) : Store :=
  fun k => if k = key then some v else S k

/-- The store `S` with the entry at `key` removed. -/
def Store.erase (S : Store) (key : List String) : Store :=
  fun k => if k = key then none else S k

/-- A `QSettings` object: the store it reads and the stack of groups opened by
`beginGroup`. -/
structure QSettings where
  store : Store
  groups : List String

/-- The constructor `QSettings(path, format)` on a file with contents `S`. -/
def QSettings.open (S : Store) : QSettings := { store := S, groups := [] }

/-- The call `settings.beginGroup(name)`. -/
def QSettings.beginGroup (q : QSettings) (name : String) : QSettings :=
  { q with groups := q.groups ++ [name] }

/-- The call `settings.endGroup()`. -/
def QSettings.endGroup (q : QSettings) : QSettings :=
  { q with groups := q.groups.dropLast }

/-- The call `settings.value(key, defaultValue)`: the stored value of `key` in the
current group, and `defaultValue` when there is none. -/
def QSettings.value (q : QSettings) (key : String) (defaultValue : QVariant) : QVariant :=
  (q.store (q.groups ++ [key])).getD defaultValue

/-! ## The control specification -/

/-- The preprocessor switches the file depends on. `VERY_SLOW_SAMPLES` is
commented out in the file, `HANTEK_AC` is a cmake option and
`LCSOFT_TEST_BOARD` comes from `modelDSO6022.h`. -/
structure Build where
  VERY_SLOW_SAMPLES : Bool
  HANTEK_AC : Bool
  LCSOFT_TEST_BOARD : Bool
deriving DecidableEq

/-- The build with every switch undefined. -/
def Build.default : Build :=
  { VERY_SLOW_SAMPLES := false, HANTEK_AC := false, LCSOFT_TEST_BOARD := false }

/-- The value of `UINT_MAX` for a 32 bit `unsigned`. -/
def UINT_MAX : Nat := 4294967295

/-- Input couplings, `Dso::Coupling`. -/
inductive Coupling where
  | DC
  | AC
deriving DecidableEq, Repr

/-- Trigger modes, `Dso::TriggerMode`. -/
inductive TriggerMode where
  | AUTO
  | NORMAL
  | SINGLE
deriving DecidableEq, Repr

/-- The limits of one acquisition mode, `samplerate.single` and `samplerate.multi`. -/
structure ControlSamplerateLimits where
  base : ℚ
  max : ℚ
  recordLengths : List Nat
deriving DecidableEq

/-- The member `samplerate` of the specification. -/
structure ControlSpecificationSamplerate where
  single : ControlSamplerateLimits
  multi : ControlSamplerateLimits
deriving DecidableEq

/-- An entry of `gain`: hardware gain and voltage steps in V/screenheight. -/
structure ControlSpecificationGainLevel where
  gainIndex : Nat
  gainSteps : ℚ
deriving DecidableEq

/-- An entry of `fixedSampleRates`: samplerate, sampleId, downsampling. -/
structure FixedSampleRate where
  samplerate : ℚ
  id : Nat
  downsampling : Nat
deriving DecidableEq

/-- The members of `Dso::ControlSpecification` that `initSpecifications` assigns,
and the channel count given to its constructor. -/
structure ControlSpecification where
  channels : Nat
  bufferDividers : List Nat
  voltageScale : List (List ℚ)
  voltageOffset : List (List Int)
  gain : List ControlSpecificationGainLevel
  samplerate : ControlSpecificationSamplerate
  fixedSampleRates : List FixedSampleRate
  couplings : List Coupling
  triggerModes : List TriggerMode
  fixedUSBinLength : Int
  calfreqSteps : List ℚ
  hasCalibrationEEPROM : Bool
deriving DecidableEq

/-- Modelled from the spec: the constructor `Dso::ControlSpecification(channels)`,
which is defined outside this file. A freshly constructed specification has one
`voltageScale` row and one `voltageOffset` row per channel; nothing else is
filled in yet. -/
def ControlSpecification.new (channels : Nat) : ControlSpecification :=
  { channels := channels
    bufferDividers := []
    voltageScale := List.replicate channels []
    voltageOffset := List.replicate channels []
    gain := []
    samplerate := { single := { base := 0, max := 0, recordLengths := [] }
                    multi := { base := 0, max := 0, recordLengths := [] } }
    fixedSampleRates := []
    couplings := []
    triggerModes := []
    fixedUSBinLength := 0
    calfreqSteps := []
    hasCalibrationEEPROM := false }

/-! ## Element access -/

/-- The update `v[i] = f(v[i])` of a vector; no change when `i` is out of bounds. -/
def updateAt {α : Type} (f : α → α) : Nat → List α → List α
  | _, [] => []
  | 0, x :: xs => f x :: xs
  | n + 1, x :: xs => x :: updateAt f n xs

/-- The update `t[ch][iii] = f(t[ch][iii])` of a table. -/
def updateCell {α : Type} (f : α → α) (ch iii : Nat) (t : List (List α)) : List (List α) :=
  updateAt (updateAt f iii) ch t

/-- The compound division `x /= gain` on an element of `voltageScale`. The
declaration of `voltageScale` is outside this file, so the operation on its
element type is a parameter of `initSpecifications`: `divDouble` is the
operation for an element of type `double`, `divIntegral` for an element of an
integral type. -/
abbrev DivAssign := ℚ → ℚ → ℚ

/-- The division `x /= gain` on a `double`. -/
def divDouble : DivAssign := fun x gain => x / gain

/-- The division `x /= gain` on an element of integral type: the quotient is
computed as a `double` and converted back by truncation towards zero. -/
def divIntegral : DivAssign := fun x gain => ((Int.tdiv (x / gain).num (x / gain).den : Int) : ℚ)

/-! ## initSpecifications -/

/-- The array `ranges` of the file. -/
def ranges : List String :=
  ["20mV", "50mV", "100mV", "200mV", "500mV", "1000mV", "2000mV", "5000mV"]

/-- The array `channels` of the file. -/
def channels : List String := ["ch0", "ch1"]

/-- The constant `RANGES`. -/
def RANGES : Nat := 8

/-- The sample value for full screen with theoretical gain setting, the
initialiser of `voltageScale[0]` and `voltageScale[1]`. -/
def theoretical : List ℚ := [40, 100, 200, 202, 198, 198, 396, 990]

/-- Lines 25 to 40: the buffer dividers and the theoretical scale and offset of
both channels. -/
def initDefaults (specification : ControlSpecification) : ControlSpecification :=
  let specification := { specification with bufferDividers := [1000, 1, 1] }
  let specification :=
    { specification with voltageScale := updateAt (fun _ => theoretical) 0 specification.voltageScale }
  let specification :=
    { specification with voltageScale := updateAt (fun _ => theoretical) 1 specification.voltageScale }
  let specification :=
    { specification with
      voltageOffset := updateAt (fun _ => [0, 0, 0, 0, 0, 0, 0, 0]) 0 specification.voltageOffset }
  { specification with
    voltageOffset := updateAt (fun _ => [0, 0, 0, 0, 0, 0, 0, 0]) 1 specification.voltageOffset }

/-- The body of the inner gain loop for one `iii`, lines 54 to 57. -/
def gainStep (div : DivAssign) (settings : QSettings) (ch : Nat)
    (specification : ControlSpecification) (iii : Nat) : ControlSpecification :=
  let gain := (settings.value (ranges.getD iii "") QVariant.gainDefault).toDouble
  if gain ≠ 0 then
    { specification with
      voltageScale := updateCell (fun x => div x gain) ch iii specification.voltageScale }
  else specification

/-- The gain loops, lines 50 to 61. -/
def gainLoop (div : DivAssign) (settings : QSettings) (specification : ControlSpecification) :
    QSettings × ControlSpecification :=
  let settings := settings.beginGroup "gain"
  let r := (List.range 2).foldl
    (fun (st : QSettings × ControlSpecification) ch =>
      let settings := st.1.beginGroup (channels.getD ch "")
      let specification := (List.range RANGES).foldl (gainStep div settings ch) st.2
      (settings.endGroup, specification))
    (settings, specification)
  (r.1.endGroup, r.2)

/-- The body of the inner offset loop for one `iii`, lines 68 to 71. -/
def offsetStep (settings : QSettings) (ch : Nat)
    (specification : ControlSpecification) (iii : Nat) : ControlSpecification :=
  let offset := (settings.value (ranges.getD iii "") QVariant.offsetDefault).toInt
  if offset ≠ 255 then
    { specification with
      voltageOffset :=
        updateCell (fun _ => wrapInt32 (0x80 - offset)) ch iii specification.voltageOffset }
  else specification

/-- The offset loops, lines 63 to 75. -/
def offsetLoop (settings : QSettings) (specification : ControlSpecification) :
    QSettings × ControlSpecification :=
  let settings := settings.beginGroup "offset"
  let r := (List.range 2).foldl
    (fun (st : QSettings × ControlSpecification) ch =>
      let settings := st.1.beginGroup (channels.getD ch "")
      let specification := (List.range RANGES).foldl (offsetStep settings ch) st.2
      (settings.endGroup, specification))
    (settings, specification)
  (r.1.endGroup, r.2)

/-- The calibration overlay, lines 48 to 75: the settings object is opened on
the file and the gain loops and the offset loops run one after the other. -/
def calibrationOverlay (div : DivAssign) (S : Store) (specification : ControlSpecification) :
    ControlSpecification :=
  let settings := QSettings.open S
  let r := gainLoop div settings specification
  (offsetLoop r.1 r.2).2

/-- The initialiser of `fixedSampleRates`, lines 105 to 126. -/
def fixedSampleRatesInit (b : Build) : List FixedSampleRate :=
  (if b.VERY_SLOW_SAMPLES then
    [⟨1000, 110, 100⟩, ⟨2000, 120, 100⟩, ⟨5000, 150, 100⟩]
   else []) ++
  [ ⟨10000, 1, 100⟩, ⟨20000, 2, 100⟩, ⟨50000, 5, 100⟩, ⟨100000, 10, 100⟩,
    ⟨200000, 10, 50⟩, ⟨500000, 10, 20⟩, ⟨1000000, 10, 10⟩, ⟨2000000, 10, 5⟩,
    ⟨5000000, 10, 2⟩, ⟨10000000, 10, 1⟩, ⟨12000000, 12, 1⟩, ⟨15000000, 15, 1⟩,
    ⟨24000000, 24, 1⟩, ⟨30000000, 30, 1⟩, ⟨48000000, 48, 1⟩ ]

/-- Lines 77 to 139: the gain table, the sample rates, couplings, trigger modes
and calibration frequencies. -/
def initTables (b : Build) (specification : ControlSpecification) : ControlSpecification :=
  { specification with
    gain := [⟨10, 0.16⟩, ⟨10, 0.40⟩, ⟨10, 0.80⟩, ⟨5, 1.60⟩, ⟨2, 4.00⟩, ⟨1, 8.00⟩, ⟨1, 16.00⟩,
      ⟨1, 40.00⟩]
    samplerate :=
      { single := { base := 1000000, max := 30000000, recordLengths := [UINT_MAX] }
        multi := { base := 1000000, max := 15000000, recordLengths := [UINT_MAX] } }
    fixedSampleRates := fixedSampleRatesInit b
    couplings := if b.HANTEK_AC then [Coupling.DC, Coupling.AC] else [Coupling.DC]
    triggerModes := [TriggerMode.AUTO, TriggerMode.NORMAL, TriggerMode.SINGLE]
    fixedUSBinLength := 0
    calfreqSteps := [50, 60, 100, 200, 500, 1000, 2000, 5000, 10000, 20000, 50000, 100000]
    hasCalibrationEEPROM := true }

/-- The function `initSpecifications(specification)`, run with the settings file
holding `S`. -/
def initSpecifications (b : Build) (div : DivAssign) (S : Store)
    (specification : ControlSpecification) : ControlSpecification :=
  initTables b (calibrationOverlay div S (initDefaults specification))

/-! ## The command binder and the device models -/

/-- A control command object, identified by its opcode. The command classes are
declared in `hantekprotocol/controlStructs.h`; the opcodes of the seven classes
used here are the ones the file notes beside each `addCommand`. -/
structure ControlCommand where
  code : Nat
deriving DecidableEq, Repr

/-- The command `ControlSetVoltDIV_CH1`, opcode 0xE0. -/
def ControlSetVoltDIV_CH1 : ControlCommand := { code := 0xE0 }

/-- The command `ControlSetVoltDIV_CH2`, opcode 0xE1. -/
def ControlSetVoltDIV_CH2 : ControlCommand := { code := 0xE1 }

/-- The command `ControlSetTimeDIV`, opcode 0xE2. -/
def ControlSetTimeDIV : ControlCommand := { code := 0xE2 }

/-- The command `ControlAcquireHardData`, opcode 0xE3. -/
def ControlAcquireHardData : ControlCommand := { code := 0xE3 }

/-- The command `ControlSetNumChannels`, opcode 0xE4. -/
def ControlSetNumChannels : ControlCommand := { code := 0xE4 }

/-- The command `ControlSetCoupling`, opcode 0xE5. -/
def ControlSetCoupling : ControlCommand := { code := 0xE5 }

/-- The command `ControlSetCalFreq`, opcode 0xE6. -/
def ControlSetCalFreq : ControlCommand := { code := 0xE6 }

/-- The part of `HantekDsoControl` the binder touches: the commands registered
so far, in registration order. -/
structure HantekDsoControl where
  commands : List ControlCommand
deriving DecidableEq

/-- Modelled from the spec: the method `HantekDsoControl::addCommand`, which is
defined outside this file. A command is registered behind the commands already
there; nothing is reordered or deduplicated. -/
def HantekDsoControl.addCommand (dsoControl : HantekDsoControl) (newCommand : ControlCommand) :
    HantekDsoControl :=
  { commands := dsoControl.commands ++ [newCommand] }

/-- The function `applyRequirements_(dsoControl)`, lines 142 to 150. -/
def applyRequirements_ (dsoControl : HantekDsoControl) : HantekDsoControl :=
  let dsoControl := dsoControl.addCommand ControlSetVoltDIV_CH1
  let dsoControl := dsoControl.addCommand ControlSetVoltDIV_CH2
  let dsoControl := dsoControl.addCommand ControlSetTimeDIV
  let dsoControl := dsoControl.addCommand ControlAcquireHardData
  let dsoControl := dsoControl.addCommand ControlSetNumChannels
  let dsoControl := dsoControl.addCommand ControlSetCoupling
  dsoControl.addCommand ControlSetCalFreq

/-- The members of `DSOModel`, in the order of its constructor arguments:
VID/PID active, VID/PID no FW, FW ver, FW name, scope name, specification. -/
structure DSOModel where
  ID : Int
  vendorID : Nat
  productID : Nat
  vendorIDnoFirmware : Nat
  productIDnoFirmware : Nat
  firmwareVersion : Nat
  firmwareToken : String
  name : String
  specification : ControlSpecification
deriving DecidableEq

/-- The method `applyRequirements` of every model class: each calls
`applyRequirements_`. -/
def DSOModel.applyRequirements (_m : DSOModel) (dsoControl : HantekDsoControl) :
    HantekDsoControl :=
  applyRequirements_ dsoControl

/-- The constants `ID` of the model classes, declared in `modelDSO6022.h`. -/
structure ModelIDs where
  ModelDSO6022BE : Int
  ModelDSO6022BL : Int
  ModelDSO2020 : Int
  ModelEzUSB : Int
  ModelSaleae : Int

/-- The constructor `ModelDSO6022BE::ModelDSO6022BE()`. -/
def ModelDSO6022BE (ids : ModelIDs) (b : Build) (div : DivAssign) (S : Store) : DSOModel :=
  { ID := ids.ModelDSO6022BE, vendorID := 0x04b5, productID := 0x6022
    vendorIDnoFirmware := 0x04b4, productIDnoFirmware := 0x6022
    firmwareVersion := 0x0206, firmwareToken := "dso6022be", name := "DSO-6022BE"
    specification := initSpecifications b div S (ControlSpecification.new 2) }

/-- The constructor `ModelDSO6022BL::ModelDSO6022BL()`. -/
def ModelDSO6022BL (ids : ModelIDs) (b : Build) (div : DivAssign) (S : Store) : DSOModel :=
  { ID := ids.ModelDSO6022BL, vendorID := 0x04b5, productID := 0x602a
    vendorIDnoFirmware := 0x04b4, productIDnoFirmware := 0x602a
    firmwareVersion := 0x0206, firmwareToken := "dso6022bl", name := "DSO-6022BL"
    specification := initSpecifications b div S (ControlSpecification.new 2) }

/-- The constructor `ModelDSO2020::ModelDSO2020()`. -/
def ModelDSO2020 (ids : ModelIDs) (b : Build) (div : DivAssign) (S : Store) : DSOModel :=
  { ID := ids.ModelDSO2020, vendorID := 0x04b5, productID := 0x6022
    vendorIDnoFirmware := 0x04b4, productIDnoFirmware := 0x2020
    firmwareVersion := 0x0206, firmwareToken := "dso6022be", name := "DSO-2020"
    specification := initSpecifications b div S (ControlSpecification.new 2) }

/-- The constructor `ModelEzUSB::ModelEzUSB()`. -/
def ModelEzUSB (ids : ModelIDs) (b : Build) (div : DivAssign) (S : Store) : DSOModel :=
  { ID := ids.ModelEzUSB, vendorID := 0x04b5, productID := 0x6022
    vendorIDnoFirmware := 0x04b4, productIDnoFirmware := 0x8613
    firmwareVersion := 0x0206, firmwareToken := "dso6022be", name := "LCsoft-EzUSB"
    specification := initSpecifications b div S (ControlSpecification.new 2) }

/-- The constructor `ModelSaleae::ModelSaleae()`. -/
def ModelSaleae (ids : ModelIDs) (b : Build) (div : DivAssign) (S : Store) : DSOModel :=
  { ID := ids.ModelSaleae, vendorID := 0x04b5, productID := 0x6022
    vendorIDnoFirmware := 0x0925, productIDnoFirmware := 0x3881
    firmwareVersion := 0x0206, firmwareToken := "dso6022be", name := "LCsoft-Saleae"
    specification := initSpecifications b div S (ControlSpecification.new 2) }

/-- The static model instances of the file: `modelInstance_6022be`,
`modelInstance_6022bl`, `modelInstance_2020` and, with `LCSOFT_TEST_BOARD`,
`modelInstance_EzUSB` and `modelInstance_Saleae`. -/
def modelInstances (ids : ModelIDs) (b : Build) (div : DivAssign) (S : Store) : List DSOModel :=
  [ModelDSO6022BE ids b div S, ModelDSO6022BL ids b div S, ModelDSO2020 ids b div S] ++
  (if b.LCSOFT_TEST_BOARD then [ModelEzUSB ids b div S, ModelSaleae ids b div S] else [])

/-! ## Vocabulary of the statements -/

/-- The element `t[c][r]` of a table, when both indices are in bounds. -/
def cell? {α : Type} (t : List (List α)) (c r : Nat) : Option α :=
  (t[c]?).bind (fun row => row[r]?)

/-- The key the gain loops read for channel `c` and range `r`. -/
def gainKey (c r : Nat) : List String := ["gain", channels.getD c "", ranges.getD r ""]

/-- The key the offset loops read for channel `c` and range `r`. -/
def offsetKey (c r : Nat) : List String := ["offset", channels.getD c "", ranges.getD r ""]

/-- The value of the local `gain` in the loop body for channel `c` and range `r`. -/
def storedGain (S : Store) (c r : Nat) : ℚ :=
  ((S (gainKey c r)).getD QVariant.gainDefault).toDouble

/-- The value of the local `offset` in the loop body for channel `c` and range `r`. -/
def storedOffset (S : Store) (c r : Nat) : Int :=
  ((S (offsetKey c r)).getD QVariant.offsetDefault).toInt

/-- What one pass of the gain loop body does to an element, given `gain`. -/
def gainFn (div : DivAssign) (gain : ℚ) (x : ℚ) : ℚ :=
  if gain ≠ 0 then div x gain else x

/-- What one pass of the offset loop body does to an element, given `offset`. -/
def offsetFn (offset : Int) (x : Int) : Int :=
  if offset ≠ 255 then wrapInt32 (0x80 - offset) else x

/-- The list with `f i` applied to the element at index `i - k`. -/
def mapIdxFrom {α : Type} (f : Nat → α → α) : Nat → List α → List α
  | _, [] => []
  | k, x :: xs => f k x :: mapIdxFrom f (k + 1) xs

/-- The table with `F c r` applied to the element at `[c][r]` for the channels
`c < 2` and the ranges `r < 8` of the loops, and every other element kept. -/
def mapCells {α : Type} (F : Nat → Nat → α → α) (t : List (List α)) : List (List α) :=
  mapIdxFrom
    (fun c row => if c < 2 then mapIdxFrom (fun r x => if r < 8 then F c r x else x) 0 row else row)
    0 t

/-- The active-state USB identity of a model. -/
def DSOModel.active (m : DSOModel) : Nat × Nat := (m.vendorID, m.productID)

/-- The pre-firmware USB identity of a model. -/
def DSOModel.noFirmware (m : DSOModel) : Nat × Nat :=
  (m.vendorIDnoFirmware, m.productIDnoFirmware)

/-- The seven commands of `applyRequirements_` in the order of registration. -/
def boundCommands : List ControlCommand :=
  [ControlSetVoltDIV_CH1, ControlSetVoltDIV_CH2, ControlSetTimeDIV, ControlAcquireHardData,
    ControlSetNumChannels, ControlSetCoupling, ControlSetCalFreq]

/-- A store with the entries of the end-to-end example: gain `"1.0"` and offset
`"130"` for channel 0 at 20mV. -/
def exampleStore : Store :=
  (Store.empty.insert (gainKey 0 0) { asDouble := some 1, asInt := none }).insert
    (offsetKey 0 0) { asDouble := some 130, asInt := some 130 }

/-- A store whose only entry is the gain 2 for channel 0 at 20mV. -/
def gainTwoStore : Store :=
  Store.empty.insert (gainKey 0 0) { asDouble := some 2, asInt := some 2 }

/-- A store whose only entry is an offset for channel 0 at 20mV that is not a
number. -/
def malformedOffsetStore : Store :=
  Store.empty.insert (offsetKey 0 0) { asDouble := none, asInt := none }

/-- A store whose only entry is the offset -2147483648, the least `int`, for
channel 0 at 20mV. -/
def minIntOffsetStore : Store :=
  Store.empty.insert (offsetKey 0 0) { asDouble := some (-2147483648), asInt := some (-2147483648) }

/-- The overall gain of the front end relative to the theoretical gain setting,
as the file notes it above the theoretical values: x10 ok, x5 1% too high, x2
and x1 1% too low. -/
def overallGain : Nat → ℚ
  | 10 => 1
  | 5 => 101 / 100
  | 2 => 99 / 100
  | 1 => 99 / 100
  | _ => 1

/-- The number written by a list of decimal digits, when all are digits. -/
def digitsValue : List Char → Option Nat
  | [] => some 0
  | d :: ds =>
    if d.isDigit then (digitsValue ds).map (fun n => (d.toNat - 48) * 10 ^ ds.length + n)
    else none

/-- The voltage in mV that a range name such as `"200mV"` names. -/
def rangeMillivolts (name : String) : Option Nat :=
  match name.data.reverse with
  | 'V' :: 'm' :: d :: ds => digitsValue (d :: ds).reverse
  | _ => none

/-- A specification of two channels: both tables have one row per channel. -/
def ControlSpecification.TwoChannels (s : ControlSpecification) : Prop :=
  s.voltageScale.length = 2 ∧ s.voltageOffset.length = 2

/-- The entries of `fixedSampleRates` with a samplerate above `limit`. -/
def ratesAbove (limit : ℚ) (rates : List FixedSampleRate) : List FixedSampleRate :=
  rates.filter (fun e => decide (limit < e.samplerate))


/-! ## Lists and tables -/

theorem updateAt_id {α : Type} (n : Nat) (l : List α) : updateAt (fun x => x) n l = l := by
  induction l generalizing n with
  | nil => cases n <;> rfl
  | cons x xs ih =>
    cases n with
    | zero => rfl
    | succ n => simp [updateAt, ih]

theorem updateAt_updateAt {α : Type} (f g : α → α) (n : Nat) (l : List α) :
    updateAt f n (updateAt g n l) = updateAt (fun x => f (g x)) n l := by
  induction l generalizing n with
  | nil => cases n <;> rfl
  | cons x xs ih =>
    cases n with
    | zero => rfl
    | succ n => simp [updateAt, ih]

theorem length_updateAt {α : Type} (f : α → α) (n : Nat) (l : List α) :
    (updateAt f n l).length = l.length := by
  induction l generalizing n with
  | nil => cases n <;> rfl
  | cons x xs ih =>
    cases n with
    | zero => rfl
    | succ n => simp [updateAt, ih]

theorem mapIdxFrom_id {α : Type} (k : Nat) (l : List α) : mapIdxFrom (fun _ x => x) k l = l := by
  induction l generalizing k with
  | nil => rfl
  | cons x xs ih => simp [mapIdxFrom, ih]

theorem mapIdxFrom_congr {α : Type} (f g : Nat → α → α) (k : Nat) (l : List α)
    (h : ∀ i x, k ≤ i → f i x = g i x) : mapIdxFrom f k l = mapIdxFrom g k l := by
  induction l generalizing k with
  | nil => rfl
  | cons x xs ih =>
    simp only [mapIdxFrom]
    rw [h k x (Nat.le_refl k), ih (k + 1) (fun i y hi => h i y (by omega))]

theorem mapIdxFrom_mapIdxFrom {α : Type} (f g : Nat → α → α) (k : Nat) (l : List α) :
    mapIdxFrom f k (mapIdxFrom g k l) = mapIdxFrom (fun i x => f i (g i x)) k l := by
  induction l generalizing k with
  | nil => rfl
  | cons x xs ih => simp [mapIdxFrom, ih]

theorem length_mapIdxFrom {α : Type} (f : Nat → α → α) (k : Nat) (l : List α) :
    (mapIdxFrom f k l).length = l.length := by
  induction l generalizing k with
  | nil => rfl
  | cons x xs ih => simp [mapIdxFrom, ih]

theorem getElem?_mapIdxFrom {α : Type} (f : Nat → α → α) (k : Nat) (l : List α) (i : Nat) :
    (mapIdxFrom f k l)[i]? = (l[i]?).map (f (k + i)) := by
  induction l generalizing k i with
  | nil => simp [mapIdxFrom]
  | cons x xs ih =>
    cases i with
    | zero => simp [mapIdxFrom]
    | succ i =>
      simp only [mapIdxFrom, List.getElem?_cons_succ, ih]
      rw [show k + 1 + i = k + (i + 1) by omega]

theorem updateAt_mapIdxFrom {α : Type} (g : α → α) (f : Nat → α → α) (n k : Nat) (l : List α) :
    updateAt g n (mapIdxFrom f k l) =
      mapIdxFrom (fun i x => if i = k + n then g (f i x) else f i x) k l := by
  induction l generalizing n k with
  | nil => cases n <;> rfl
  | cons x xs ih =>
    cases n with
    | zero =>
      simp only [mapIdxFrom, updateAt, Nat.add_zero, if_true, List.cons.injEq, true_and]
      exact mapIdxFrom_congr _ _ _ _ (fun i y hi => by rw [if_neg (by omega)])
    | succ n =>
      simp only [mapIdxFrom, updateAt, ih, List.cons.injEq]
      refine ⟨by rw [if_neg (by omega)], ?_⟩
      rw [show k + 1 + n = k + (n + 1) by omega]

/-- A loop that updates the elements `0 .. n-1` of a vector one after the other. -/
theorem foldl_range_updateAt {α : Type} (f : Nat → α → α) (n : Nat) (l : List α) :
    (List.range n).foldl (fun l i => updateAt (f i) i l) l =
      mapIdxFrom (fun i x => if i < n then f i x else x) 0 l := by
  induction n with
  | zero => simp [mapIdxFrom_id]
  | succ n ih =>
    rw [List.range_succ, List.foldl_append, ih]
    simp only [List.foldl_cons, List.foldl_nil, updateAt_mapIdxFrom, Nat.zero_add]
    refine mapIdxFrom_congr _ _ _ _ (fun i x _ => ?_)
    by_cases h : i = n
    · subst h; simp
    · by_cases h2 : i < n
      · simp [h, h2, Nat.lt_succ_of_lt h2]
      · simp [h, h2, show ¬ i < n + 1 by omega]

/-- A loop whose every pass updates the same element of a vector. -/
theorem foldl_updateAt_same {α ι : Type} (h : ι → α → α) (ch : Nat) (is : List ι) (t : List α) :
    is.foldl (fun t i => updateAt (h i) ch t) t =
      updateAt (fun row => is.foldl (fun row i => h i row) row) ch t := by
  induction is generalizing t with
  | nil => simp [updateAt_id]
  | cons i is ih =>
    simp only [List.foldl_cons, ih, updateAt_updateAt]

/-- The nested loops over the channels and the ranges, as one pass over the table. -/
theorem foldl_updateCell {α : Type} (F : Nat → Nat → α → α) (t : List (List α)) :
    (List.range 2).foldl
        (fun t ch => (List.range 8).foldl (fun t iii => updateCell (F ch iii) ch iii t) t) t =
      mapCells F t := by
  unfold mapCells updateCell
  have h1 : ∀ (ch : Nat) (t : List (List α)),
      (List.range 8).foldl (fun t iii => updateAt (updateAt (F ch iii) iii) ch t) t =
        updateAt (fun row => mapIdxFrom (fun r x => if r < 8 then F ch r x else x) 0 row) ch t := by
    intro ch t
    rw [foldl_updateAt_same (fun iii => updateAt (F ch iii) iii)]
    congr 1
    funext row
    exact foldl_range_updateAt (F ch) 8 row
  simp only [h1]
  exact foldl_range_updateAt
    (fun c row => mapIdxFrom (fun r x => if r < 8 then F c r x else x) 0 row) 2 t

theorem cell?_mapCells {α : Type} (F : Nat → Nat → α → α) (t : List (List α)) (c r : Nat) :
    cell? (mapCells F t) c r =
      (cell? t c r).map (fun x => if c < 2 ∧ r < 8 then F c r x else x) := by
  unfold cell? mapCells
  rw [getElem?_mapIdxFrom]
  cases t[c]? with
  | none => rfl
  | some row =>
    simp only [Option.map_some', Option.some_bind, Nat.zero_add]
    by_cases hc : c < 2
    · simp only [hc, if_true, getElem?_mapIdxFrom, Nat.zero_add, true_and]
    · simp [hc]

theorem mapCells_mapCells {α : Type} (F G : Nat → Nat → α → α) (t : List (List α)) :
    mapCells F (mapCells G t) = mapCells (fun c r x => F c r (G c r x)) t := by
  unfold mapCells
  rw [mapIdxFrom_mapIdxFrom]
  refine mapIdxFrom_congr _ _ _ _ (fun c row _ => ?_)
  by_cases hc : c < 2
  · simp only [hc, if_true, mapIdxFrom_mapIdxFrom]
    refine mapIdxFrom_congr _ _ _ _ (fun r x _ => ?_)
    by_cases hr : r < 8 <;> simp [hr]
  · simp [hc]

theorem mapCells_congr {α : Type} (F G : Nat → Nat → α → α) (t : List (List α))
    (h : ∀ c r x, c < 2 → r < 8 → F c r x = G c r x) : mapCells F t = mapCells G t := by
  unfold mapCells
  refine mapIdxFrom_congr _ _ _ _ (fun c row _ => ?_)
  by_cases hc : c < 2
  · simp only [hc, if_true]
    refine mapIdxFrom_congr _ _ _ _ (fun r x _ => ?_)
    by_cases hr : r < 8
    · simp [hr, h c r x hc hr]
    · simp [hr]
  · simp [hc]

theorem mapCells_id {α : Type} (t : List (List α)) : mapCells (fun _ _ x => x) t = t := by
  unfold mapCells
  have : (fun (c : Nat) (row : List α) =>
      if c < 2 then mapIdxFrom (fun r x => if r < 8 then x else x) 0 row else row) =
      fun _ row => row := by
    funext c row
    simp [mapIdxFrom_id]
  rw [this, mapIdxFrom_id]


/-! ## The loops of the overlay -/

theorem updateCell_ite {α : Type} (p : Prop) [Decidable p] (f : α → α) (ch iii : Nat)
    (t : List (List α)) :
    (if p then updateCell f ch iii t else t) =
      updateCell (fun x => if p then f x else x) ch iii t := by
  by_cases h : p
  · simp [h]
  · simp only [h, if_false, updateCell]
    have : updateAt (fun x : α => x) iii = fun l => l := funext (updateAt_id iii)
    rw [this, updateAt_id]

theorem gainStep_eq (div : DivAssign) (S : Store) (grp : List String) (ch iii : Nat)
    (s : ControlSpecification) :
    gainStep div ⟨S, grp⟩ ch s iii =
      { s with
        voltageScale :=
          updateCell
            (gainFn div ((S (grp ++ [ranges.getD iii ""])).getD QVariant.gainDefault).toDouble)
            ch iii s.voltageScale } := by
  unfold gainStep gainFn
  simp only [QSettings.value]
  rw [← updateCell_ite]
  split <;> rfl

theorem offsetStep_eq (S : Store) (grp : List String) (ch iii : Nat)
    (s : ControlSpecification) :
    offsetStep ⟨S, grp⟩ ch s iii =
      { s with
        voltageOffset :=
          updateCell
            (offsetFn ((S (grp ++ [ranges.getD iii ""])).getD QVariant.offsetDefault).toInt)
            ch iii s.voltageOffset } := by
  unfold offsetStep offsetFn
  simp only [QSettings.value]
  rw [← updateCell_ite]
  split <;> rfl

theorem foldl_gainStep (div : DivAssign) (S : Store) (grp : List String) (ch : Nat)
    (is : List Nat) (s : ControlSpecification) :
    is.foldl (gainStep div ⟨S, grp⟩ ch) s =
      { s with
        voltageScale :=
          is.foldl
            (fun t iii => updateCell
              (gainFn div ((S (grp ++ [ranges.getD iii ""])).getD QVariant.gainDefault).toDouble)
              ch iii t)
            s.voltageScale } := by
  induction is generalizing s with
  | nil => rfl
  | cons i is ih => simp only [List.foldl_cons, gainStep_eq, ih]

theorem foldl_offsetStep (S : Store) (grp : List String) (ch : Nat)
    (is : List Nat) (s : ControlSpecification) :
    is.foldl (offsetStep ⟨S, grp⟩ ch) s =
      { s with
        voltageOffset :=
          is.foldl
            (fun t iii => updateCell
              (offsetFn ((S (grp ++ [ranges.getD iii ""])).getD QVariant.offsetDefault).toInt)
              ch iii t)
            s.voltageOffset } := by
  induction is generalizing s with
  | nil => rfl
  | cons i is ih => simp only [List.foldl_cons, offsetStep_eq, ih]

/-- The gain loops leave the settings object as they found it and apply
`gainFn` with the stored gain to every element of `voltageScale`. -/
theorem gainLoop_eq (div : DivAssign) (S : Store) (s : ControlSpecification) :
    gainLoop div (QSettings.open S) s =
      (QSettings.open S,
        { s with
          voltageScale := mapCells (fun c r => gainFn div (storedGain S c r)) s.voltageScale }) := by
  rw [← foldl_updateCell]
  unfold gainLoop
  simp only [QSettings.open, QSettings.beginGroup, QSettings.endGroup,
    show List.range 2 = [0, 1] from rfl, RANGES, List.foldl_cons, List.foldl_nil,
    foldl_gainStep]
  rfl

/-- The offset loops leave the settings object as they found it and apply
`offsetFn` with the stored offset to every element of `voltageOffset`. -/
theorem offsetLoop_eq (S : Store) (s : ControlSpecification) :
    offsetLoop (QSettings.open S) s =
      (QSettings.open S,
        { s with
          voltageOffset := mapCells (fun c r => offsetFn (storedOffset S c r)) s.voltageOffset }) := by
  rw [← foldl_updateCell]
  unfold offsetLoop
  simp only [QSettings.open, QSettings.beginGroup, QSettings.endGroup,
    show List.range 2 = [0, 1] from rfl, RANGES, List.foldl_cons, List.foldl_nil,
    foldl_offsetStep]
  rfl

/-- The overlay as one pass over each of the two tables. -/
theorem calibrationOverlay_eq (div : DivAssign) (S : Store) (s : ControlSpecification) :
    calibrationOverlay div S s =
      { s with
        voltageScale := mapCells (fun c r => gainFn div (storedGain S c r)) s.voltageScale
        voltageOffset := mapCells (fun c r => offsetFn (storedOffset S c r)) s.voltageOffset } := by
  unfold calibrationOverlay
  simp only [gainLoop_eq, offsetLoop_eq]

theorem getElem?_updateAt {α : Type} (f : α → α) (n : Nat) (l : List α) (i : Nat) :
    (updateAt f n l)[i]? = if i = n then (l[i]?).map f else l[i]? := by
  induction l generalizing n i with
  | nil => cases n <;> simp [updateAt]
  | cons x xs ih =>
    cases n with
    | zero => cases i <;> simp [updateAt]
    | succ n => cases i <;> simp [updateAt, ih]

/-- The tables after the first lines of `initSpecifications`, for two channels. -/
theorem initDefaults_voltageScale (s : ControlSpecification) (hs : s.voltageScale.length = 2) :
    (initDefaults s).voltageScale = [theoretical, theoretical] := by
  unfold initDefaults
  match h : s.voltageScale, hs with
  | [a, b], _ => simp [updateAt, h]

theorem initDefaults_voltageOffset (s : ControlSpecification) (hs : s.voltageOffset.length = 2) :
    (initDefaults s).voltageOffset = [[0, 0, 0, 0, 0, 0, 0, 0], [0, 0, 0, 0, 0, 0, 0, 0]] := by
  unfold initDefaults
  match h : s.voltageOffset, hs with
  | [a, b], _ => simp [updateAt, h]

/-- The scale table that `initSpecifications` leaves. -/
theorem initSpecifications_voltageScale (b : Build) (div : DivAssign) (S : Store)
    (s : ControlSpecification) :
    (initSpecifications b div S s).voltageScale =
      mapCells (fun c r => gainFn div (storedGain S c r)) (initDefaults s).voltageScale := by
  unfold initSpecifications initTables
  rw [calibrationOverlay_eq]

/-- The offset table that `initSpecifications` leaves. -/
theorem initSpecifications_voltageOffset (b : Build) (div : DivAssign) (S : Store)
    (s : ControlSpecification) :
    (initSpecifications b div S s).voltageOffset =
      mapCells (fun c r => offsetFn (storedOffset S c r)) (initDefaults s).voltageOffset := by
  unfold initSpecifications initTables
  rw [calibrationOverlay_eq]

theorem cell?_theoretical (c r : Nat) (hc : c < 2) (hr : r < 8) :
    cell? [theoretical, theoretical] c r = some (theoretical.getD r 0) := by
  have h2 : c = 0 ∨ c = 1 := by omega
  have h8 : r = 0 ∨ r = 1 ∨ r = 2 ∨ r = 3 ∨ r = 4 ∨ r = 5 ∨ r = 6 ∨ r = 7 := by omega
  rcases h2 with rfl | rfl <;> rcases h8 with rfl | rfl | rfl | rfl | rfl | rfl | rfl | rfl <;> rfl

theorem cell?_zero (c r : Nat) (hc : c < 2) (hr : r < 8) :
    cell? [[0, 0, 0, 0, 0, 0, 0, 0], [(0 : Int), 0, 0, 0, 0, 0, 0, 0]] c r = some 0 := by
  have h2 : c = 0 ∨ c = 1 := by omega
  have h8 : r = 0 ∨ r = 1 ∨ r = 2 ∨ r = 3 ∨ r = 4 ∨ r = 5 ∨ r = 6 ∨ r = 7 := by omega
  rcases h2 with rfl | rfl <;> rcases h8 with rfl | rfl | rfl | rfl | rfl | rfl | rfl | rfl <;> rfl

/-- The element of the scale table for channel `c` and range `r`. -/
theorem cell?_voltageScale (b : Build) (div : DivAssign) (S : Store) (s : ControlSpecification)
    (hs : s.voltageScale.length = 2) (c r : Nat) (hc : c < 2) (hr : r < 8) :
    cell? (initSpecifications b div S s).voltageScale c r =
      some (gainFn div (storedGain S c r) (theoretical.getD r 0)) := by
  rw [initSpecifications_voltageScale, initDefaults_voltageScale s hs, cell?_mapCells,
    cell?_theoretical c r hc hr]
  simp [hc, hr]

/-- The element of the offset table for channel `c` and range `r`. -/
theorem cell?_voltageOffset (b : Build) (div : DivAssign) (S : Store) (s : ControlSpecification)
    (hs : s.voltageOffset.length = 2) (c r : Nat) (hc : c < 2) (hr : r < 8) :
    cell? (initSpecifications b div S s).voltageOffset c r =
      some (offsetFn (storedOffset S c r) 0) := by
  rw [initSpecifications_voltageOffset, initDefaults_voltageOffset s hs, cell?_mapCells,
    cell?_zero c r hc hr]
  simp [hc, hr]


/-! ## Stores that agree on what the loops read -/

/-- The result of `initSpecifications` depends on the store only through the
values of `gain` and `offset` the loop bodies see. -/
theorem initSpecifications_congr (b : Build) (div : DivAssign) (S T : Store)
    (s : ControlSpecification) (hg : ∀ c r, storedGain S c r = storedGain T c r)
    (ho : ∀ c r, storedOffset S c r = storedOffset T c r) :
    initSpecifications b div S s = initSpecifications b div T s := by
  have h1 : storedGain S = storedGain T := funext fun c => funext fun r => hg c r
  have h2 : storedOffset S = storedOffset T := funext fun c => funext fun r => ho c r
  unfold initSpecifications
  rw [calibrationOverlay_eq, calibrationOverlay_eq, h1, h2]

/-- A gain entry that converts to zero is read like no entry. -/
theorem initSpecifications_gain_zero (b : Build) (div : DivAssign) (S : Store)
    (s : ControlSpecification) (c r : Nat) (v : QVariant) (hv : v.toDouble = 0) :
    initSpecifications b div (S.insert (gainKey c r) v) s =
      initSpecifications b div (S.erase (gainKey c r)) s := by
  apply initSpecifications_congr
  · intro c2 r2
    unfold storedGain Store.insert Store.erase
    by_cases h : gainKey c2 r2 = gainKey c r
    · have hv2 : v.asDouble.getD 0 = 0 := hv
      simp [h, hv2, QVariant.gainDefault, QVariant.toDouble]
    · simp [h]
  · intro c2 r2
    unfold storedOffset Store.insert Store.erase
    have h : offsetKey c2 r2 ≠ gainKey c r := by simp [offsetKey, gainKey]
    simp [h]

theorem gainFn_zero (div : DivAssign) (x : ℚ) : gainFn div 0 x = x := by
  simp [gainFn]

theorem wrapInt32_of_range (n : Int) (h1 : -2147483648 ≤ n) (h2 : n ≤ 2147483647) :
    wrapInt32 n = n := by
  unfold wrapInt32
  omega

theorem storedGain_of_none (S : Store) (c r : Nat) (h : S (gainKey c r) = none) :
    storedGain S c r = 0 := by
  simp [storedGain, h, QVariant.gainDefault, QVariant.toDouble]

theorem storedOffset_of_none (S : Store) (c r : Nat) (h : S (offsetKey c r) = none) :
    storedOffset S c r = 255 := by
  simp [storedOffset, h, QVariant.offsetDefault, QVariant.toInt, wrapInt32]

/-! ## The reset of the tables -/

/-- C1. Gain correction: for a specification with two channels, a channel c < 2
and a range r < 8, if the store holds for (ch c, ranges r) a value that converts
to a non-zero number g, then after initSpecifications the element
voltageScale[c][r] is the theoretical value of r divided by g: by the division
of the element type whatever it is, and so by the exact quotient when the
element is a double. -/
theorem gain_correction (b : Build) (div : DivAssign) (S : Store) (s : ControlSpecification)
    (c r : Nat) (v : QVariant) (g : ℚ) (hs : s.voltageScale.length = 2) (hc : c < 2)
    (hr : r < 8) (hv : S (gainKey c r) = some v) (hg : v.asDouble = some g) (hg0 : g ≠ 0) :
    cell? (initSpecifications b div S s).voltageScale c r = some (div (theoretical.getD r 0) g) ∧
      cell? (initSpecifications b divDouble S s).voltageScale c r =
        some (theoretical.getD r 0 / g) := by
  have hst : storedGain S c r = g := by
    simp [storedGain, hv, QVariant.toDouble, hg]
  constructor
  · rw [cell?_voltageScale b div S s hs c r hc hr, hst]
    simp [gainFn, hg0]
  · rw [cell?_voltageScale b divDouble S s hs c r hc hr, hst]
    simp [gainFn, hg0, divDouble]

theorem gain_correction_witness :
    cell? (initSpecifications Build.default divDouble gainTwoStore
      (ControlSpecification.new 2)).voltageScale 0 0 = some (40 / 2) :=
  (gain_correction Build.default divDouble gainTwoStore (ControlSpecification.new 2) 0 0
    { asDouble := some 2, asInt := some 2 } 2 rfl (by decide) (by decide) rfl rfl
    (by norm_num)).2

/-- C2, as stated, fails at the far end of the range of int: with the offset
-2147483648 stored for channel 0 at 20mV the difference 0x80 - offset does not
fit into an int, and voltageOffset[0][0] becomes -2147483520 and not
0x80 - (-2147483648) = 2147483776. -/
theorem offset_overflow :
    cell? (initSpecifications Build.default divDouble minIntOffsetStore
        (ControlSpecification.new 2)).voltageOffset 0 0 = some (-2147483520) ∧
      cell? (initSpecifications Build.default divDouble minIntOffsetStore
        (ControlSpecification.new 2)).voltageOffset 0 0 ≠ some (0x80 - (-2147483648)) := by
  rw [cell?_voltageOffset Build.default divDouble minIntOffsetStore (ControlSpecification.new 2)
    rfl 0 0 (by decide) (by decide)]
  have ho : storedOffset minIntOffsetStore 0 0 = -2147483648 := by decide
  rw [ho]
  exact ⟨by decide, by decide⟩

/-- C2, amended. Offset correction: for a specification with two channels, a
channel c < 2 and a range r < 8, if the store holds for (ch c, ranges r) a value
that converts to an integer v other than 255 for which 0x80 - v fits into an
int, that is -2147483519 <= v <= 2147483647, then after initSpecifications
voltageOffset[c][r] = 0x80 - v; if the value converts to 255 or there is no
entry, voltageOffset[c][r] = 0. For every int v other than 255 the element is
0x80 - v reduced to 32 bits. -/
theorem offset_correction (b : Build) (div : DivAssign) (S : Store) (s : ControlSpecification)
    (c r : Nat) (hs : s.voltageOffset.length = 2) (hc : c < 2) (hr : r < 8) :
    (∀ (e : QVariant) (v : Int), S (offsetKey c r) = some e → e.asInt = some v → v ≠ 255 →
        -2147483519 ≤ v → v ≤ 2147483647 →
        cell? (initSpecifications b div S s).voltageOffset c r = some (0x80 - v)) ∧
      (∀ e : QVariant, S (offsetKey c r) = some e → e.asInt = some 255 →
        cell? (initSpecifications b div S s).voltageOffset c r = some 0) ∧
      (S (offsetKey c r) = none →
        cell? (initSpecifications b div S s).voltageOffset c r = some 0) ∧
      (∀ (e : QVariant) (v : Int), S (offsetKey c r) = some e → e.asInt = some v → v ≠ 255 →
        -2147483648 ≤ v → v ≤ 2147483647 →
        cell? (initSpecifications b div S s).voltageOffset c r = some (wrapInt32 (0x80 - v))) := by
  rw [cell?_voltageOffset b div S s hs c r hc hr]
  have hst : ∀ (e : QVariant) (v : Int), S (offsetKey c r) = some e → e.asInt = some v →
      -2147483648 ≤ v → v ≤ 2147483647 → storedOffset S c r = v := by
    intro e v he hv h1 h2
    simp only [storedOffset, he, Option.getD_some, QVariant.toInt, hv]
    exact wrapInt32_of_range v h1 h2
  refine ⟨fun e v he hv hne h1 h2 => ?_, fun e he hv => ?_, fun hn => ?_,
    fun e v he hv hne h1 h2 => ?_⟩
  · rw [hst e v he hv (by omega) h2]
    simp only [offsetFn, hne, ne_eq, not_false_eq_true, if_true]
    rw [wrapInt32_of_range _ (by omega) (by omega)]
  · rw [hst e 255 he hv (by decide) (by decide)]
    rfl
  · rw [storedOffset_of_none S c r hn]
    rfl
  · rw [hst e v he hv h1 h2]
    simp only [offsetFn, hne, ne_eq, not_false_eq_true, if_true]

theorem offset_correction_witness :
    cell? (initSpecifications Build.default divDouble exampleStore
      (ControlSpecification.new 2)).voltageOffset 0 0 = some (0x80 - 130) :=
  (offset_correction Build.default divDouble exampleStore (ControlSpecification.new 2) 0 0
    rfl (by decide) (by decide)).1 { asDouble := some 130, asInt := some 130 } 130 rfl rfl
    (by decide) (by decide) (by decide)

/-- C4, as stated, fails: with gain 1.0 and offset 130 stored for channel 0 at
20mV, voltageOffset[0][0] is not 2. -/
theorem example_offset_not_two :
    cell? (initSpecifications Build.default divDouble exampleStore
      (ControlSpecification.new 2)).voltageOffset 0 0 ≠ some 2 := by
  rw [cell?_voltageOffset Build.default divDouble exampleStore (ControlSpecification.new 2) rfl
    0 0 (by decide) (by decide)]
  have ho : storedOffset exampleStore 0 0 = 130 := rfl
  rw [ho]
  decide

/-- C4, amended. With a store whose only entries are gain 1.0 and offset 130
for channel 0 at 20mV, initSpecifications leaves voltageScale[0][0] = 40, for an
element of type double as for one of integral type, and
voltageOffset[0][0] = 0x80 - 130 = -2. -/
theorem example_end_to_end :
    cell? (initSpecifications Build.default divDouble exampleStore
        (ControlSpecification.new 2)).voltageScale 0 0 = some 40 ∧
      cell? (initSpecifications Build.default divIntegral exampleStore
        (ControlSpecification.new 2)).voltageScale 0 0 = some 40 ∧
      cell? (initSpecifications Build.default divDouble exampleStore
        (ControlSpecification.new 2)).voltageOffset 0 0 = some (-2) := by
  have hg : storedGain exampleStore 0 0 = 1 := rfl
  have ho : storedOffset exampleStore 0 0 = 130 := rfl
  refine ⟨?_, ?_, ?_⟩
  · rw [cell?_voltageScale Build.default divDouble exampleStore (ControlSpecification.new 2) rfl
      0 0 (by decide) (by decide), hg]
    norm_num [gainFn, divDouble, theoretical]
  · rw [cell?_voltageScale Build.default divIntegral exampleStore (ControlSpecification.new 2)
      rfl 0 0 (by decide) (by decide), hg]
    norm_num [gainFn, divIntegral, theoretical]
  · rw [cell?_voltageOffset Build.default divDouble exampleStore (ControlSpecification.new 2)
      rfl 0 0 (by decide) (by decide), ho]
    decide


/-- C5. Empty store: initSpecifications with an empty store on a freshly
constructed specification of two channels leaves both rows of voltageScale at
40, 100, 200, 202, 198, 198, 396, 990 and both rows of voltageOffset at zero;
and for every store, every specification of two channels and every c < 2,
r < 8 without a gain entry, voltageScale[c][r] is the theoretical value of r. -/
theorem empty_store_defaults :
    (∀ (b : Build) (div : DivAssign),
        (initSpecifications b div Store.empty (ControlSpecification.new 2)).voltageScale =
            [[40, 100, 200, 202, 198, 198, 396, 990], [40, 100, 200, 202, 198, 198, 396, 990]] ∧
          (initSpecifications b div Store.empty (ControlSpecification.new 2)).voltageOffset =
            [[0, 0, 0, 0, 0, 0, 0, 0], [0, 0, 0, 0, 0, 0, 0, 0]]) ∧
      (∀ (b : Build) (div : DivAssign) (S : Store) (s : ControlSpecification) (c r : Nat),
        s.voltageScale.length = 2 → c < 2 → r < 8 → S (gainKey c r) = none →
          cell? (initSpecifications b div S s).voltageScale c r =
            some ([40, 100, 200, 202, 198, 198, 396, 990].getD r 0)) := by
  constructor
  · intro b div
    constructor
    · rw [initSpecifications_voltageScale,
        initDefaults_voltageScale (ControlSpecification.new 2) rfl]
      have h : mapCells (fun c r => gainFn div (storedGain Store.empty c r))
            [theoretical, theoretical] =
          mapCells (fun _ _ x => x) [theoretical, theoretical] :=
        mapCells_congr _ _ _ (fun c r x _ _ => gainFn_zero div x)
      rw [h, mapCells_id]
      rfl
    · rw [initSpecifications_voltageOffset,
        initDefaults_voltageOffset (ControlSpecification.new 2) rfl]
      have h : mapCells (fun c r => offsetFn (storedOffset Store.empty c r))
            [[0, 0, 0, 0, 0, 0, 0, 0], [0, 0, 0, 0, 0, 0, 0, 0]] =
          mapCells (fun _ _ x => x) [[0, 0, 0, 0, 0, 0, 0, 0], [0, 0, 0, 0, 0, 0, 0, 0]] :=
        mapCells_congr _ _ _ (fun c r x _ _ => rfl)
      rw [h, mapCells_id]
  · intro b div S s c r hs hc hr hn
    rw [cell?_voltageScale b div S s hs c r hc hr, storedGain_of_none S c r hn, gainFn_zero]
    rfl

theorem empty_store_defaults_witness :
    cell? (initSpecifications Build.default divDouble exampleStore
      (ControlSpecification.new 2)).voltageScale 1 3 = some 202 :=
  empty_store_defaults.2 Build.default divDouble exampleStore (ControlSpecification.new 2) 1 3
    rfl (by decide) (by decide) rfl

/-- C6. A zero gain is equivalent to absence: for every store S, every
specification and every (c, r), initSpecifications from S with the gain entry
of (c, r) set to a value that converts to 0 gives the specification it gives
from S with that entry removed. -/
theorem zero_gain_is_absence (b : Build) (div : DivAssign) (S : Store) (s : ControlSpecification)
    (c r : Nat) (v : QVariant) (hv : v.asDouble = some 0) :
    initSpecifications b div (S.insert (gainKey c r) v) s =
      initSpecifications b div (S.erase (gainKey c r)) s :=
  initSpecifications_gain_zero b div S s c r v (by simp [QVariant.toDouble, hv])

theorem zero_gain_is_absence_witness :
    initSpecifications Build.default divDouble
        (gainTwoStore.insert (gainKey 0 0) { asDouble := some 0, asInt := some 0 })
        (ControlSpecification.new 2) =
      initSpecifications Build.default divDouble (gainTwoStore.erase (gainKey 0 0))
        (ControlSpecification.new 2) :=
  zero_gain_is_absence Build.default divDouble gainTwoStore (ControlSpecification.new 2) 0 0
    { asDouble := some 0, asInt := some 0 } rfl

/-- C7, as stated, fails for offsets: an offset entry for channel 0 at 20mV
that is not a number gives another specification than the store without the
entry. -/
theorem malformed_offset_differs :
    initSpecifications Build.default divDouble malformedOffsetStore
        (ControlSpecification.new 2) ≠
      initSpecifications Build.default divDouble (malformedOffsetStore.erase (offsetKey 0 0))
        (ControlSpecification.new 2) := by
  intro h
  have h2 := congrArg (fun s => cell? s.voltageOffset 0 0) h
  simp only [cell?_voltageOffset Build.default divDouble _ (ControlSpecification.new 2) rfl
    0 0 (by decide) (by decide)] at h2
  have h3 : storedOffset malformedOffsetStore 0 0 = 0 := rfl
  have h4 : storedOffset (malformedOffsetStore.erase (offsetKey 0 0)) 0 0 = 255 := rfl
  rw [h3, h4] at h2
  revert h2
  decide

/-- C7, amended. A gain entry that is not a parseable number is read as 0.0 and
gives the specification of the store without the entry. An offset entry that is
not a parseable integer is read as 0, which is not the sentinel 255: for a
specification of two channels, c < 2 and r < 8 it leaves
voltageOffset[c][r] = 0x80 = 128. -/
theorem malformed_entries (b : Build) (div : DivAssign) (S : Store) (s : ControlSpecification)
    (c r : Nat) (v : QVariant) :
    (v.asDouble = none →
        initSpecifications b div (S.insert (gainKey c r) v) s =
          initSpecifications b div (S.erase (gainKey c r)) s) ∧
      (v.asInt = none → s.voltageOffset.length = 2 → c < 2 → r < 8 →
        cell? (initSpecifications b div (S.insert (offsetKey c r) v) s).voltageOffset c r =
          some 128) := by
  constructor
  · intro hv
    exact initSpecifications_gain_zero b div S s c r v (by simp [QVariant.toDouble, hv])
  · intro hv hs hc hr
    rw [cell?_voltageOffset b div _ s hs c r hc hr]
    simp [storedOffset, Store.insert, QVariant.toInt, hv, offsetFn, wrapInt32]

theorem malformed_entries_witness :
    initSpecifications Build.default divDouble
          (Store.empty.insert (gainKey 1 2) { asDouble := none, asInt := none })
          (ControlSpecification.new 2) =
        initSpecifications Build.default divDouble (Store.empty.erase (gainKey 1 2))
          (ControlSpecification.new 2) ∧
      cell? (initSpecifications Build.default divDouble
          (Store.empty.insert (offsetKey 1 2) { asDouble := none, asInt := none })
          (ControlSpecification.new 2)).voltageOffset 1 2 = some 128 :=
  ⟨(malformed_entries Build.default divDouble Store.empty (ControlSpecification.new 2) 1 2
      { asDouble := none, asInt := none }).1 rfl,
    (malformed_entries Build.default divDouble Store.empty (ControlSpecification.new 2) 1 2
      { asDouble := none, asInt := none }).2 rfl rfl (by decide) (by decide)⟩

/-- C8, as stated, fails: the models DSO-6022BE and DSO-2020, the first and
the third static instance, have the same active-state identity. -/
theorem active_identity_shared :
    ¬ ∀ (ids : ModelIDs) (b : Build) (div : DivAssign) (S : Store),
      (modelInstances ids b div S).Pairwise (fun m n => m.active ≠ n.active) := by
  intro h
  have h2 := h ⟨0x6022, 0x602a, 0x2020, 0x8613, 0x3881⟩ Build.default divDouble Store.empty
  simp [modelInstances, Build.default, ModelDSO6022BE, ModelDSO6022BL, ModelDSO2020,
    DSOModel.active] at h2

/-- C8, amended. Two models constructed in the file have the same active-state
identity exactly when they have the same config name: DSO-6022BE, DSO-2020 and,
with LCSOFT_TEST_BOARD, the two test boards load the firmware dso6022be and
all report 04b5:6022, DSO-6022BL loads dso6022bl and reports 04b5:602a. -/
theorem active_identity_by_firmware (ids : ModelIDs) (b : Build) (div : DivAssign) (S : Store)
    (m n : DSOModel) (hm : m ∈ modelInstances ids b div S)
    (hn : n ∈ modelInstances ids b div S) :
    m.active = n.active ↔ m.firmwareToken = n.firmwareToken := by
  have key : ∀ x ∈ modelInstances ids b div S,
      (x.active = (0x04b5, 0x6022) ∧ x.firmwareToken = "dso6022be") ∨
        (x.active = (0x04b5, 0x602a) ∧ x.firmwareToken = "dso6022bl") := by
    intro x hx
    unfold modelInstances at hx
    cases hb : b.LCSOFT_TEST_BOARD
    · simp only [hb, if_false, Bool.false_eq_true, List.append_nil, List.mem_cons,
        List.mem_singleton, List.not_mem_nil, or_false] at hx
      rcases hx with hx | hx | hx <;> subst hx <;>
        simp [ModelDSO6022BE, ModelDSO6022BL, ModelDSO2020, DSOModel.active]
    · simp only [hb, if_true, List.mem_append, List.mem_cons, List.mem_singleton,
        List.not_mem_nil, or_false] at hx
      rcases hx with (hx | hx | hx) | (hx | hx) <;> subst hx <;>
        simp [ModelDSO6022BE, ModelDSO6022BL, ModelDSO2020, ModelEzUSB, ModelSaleae,
          DSOModel.active]
  rcases key m hm with ⟨h1, h2⟩ | ⟨h1, h2⟩ <;> rcases key n hn with ⟨h3, h4⟩ | ⟨h3, h4⟩ <;>
    simp [h1, h2, h3, h4]

theorem active_identity_by_firmware_witness :
    (ModelDSO6022BE ⟨0, 1, 2, 3, 4⟩ Build.default divDouble Store.empty).active =
        (ModelDSO2020 ⟨0, 1, 2, 3, 4⟩ Build.default divDouble Store.empty).active ↔
      (ModelDSO6022BE ⟨0, 1, 2, 3, 4⟩ Build.default divDouble Store.empty).firmwareToken =
        (ModelDSO2020 ⟨0, 1, 2, 3, 4⟩ Build.default divDouble Store.empty).firmwareToken :=
  active_identity_by_firmware ⟨0, 1, 2, 3, 4⟩ Build.default divDouble Store.empty _ _
    (by simp [modelInstances]) (by simp [modelInstances])

/-- C9, as stated, fails: on a controller without commands the binder registers
seven commands, not six. -/
theorem bound_commands_not_six :
    (applyRequirements_ { commands := [] }).commands.length ≠ 6 := by
  decide

/-- C9, amended. For every model, applyRequirements registers exactly seven
commands behind the ones already registered, which it neither reorders nor
removes: the vertical-scale select of channel 1 and of channel 2, the timebase
select, acquire data, the channel-count select, the coupling select and the
calibration-frequency select, with the opcodes 0xE0 to 0xE6 in this order and
so pairwise distinct. -/
theorem bound_commands (m : DSOModel) (dsoControl : HantekDsoControl) :
    (m.applyRequirements dsoControl).commands =
        dsoControl.commands ++
          [ControlSetVoltDIV_CH1, ControlSetVoltDIV_CH2, ControlSetTimeDIV,
            ControlAcquireHardData, ControlSetNumChannels, ControlSetCoupling,
            ControlSetCalFreq] ∧
      boundCommands.length = 7 ∧ boundCommands.Nodup ∧
      boundCommands.map ControlCommand.code = [0xE0, 0xE1, 0xE2, 0xE3, 0xE4, 0xE5, 0xE6] := by
  refine ⟨?_, by decide, by decide, by decide⟩
  simp [DSOModel.applyRequirements, applyRequirements_, HantekDsoControl.addCommand]

/-- C10. The table fixedSampleRates that initSpecifications builds is strictly
increasing by samplerate, in the default build and in every other one: every
entry has a smaller samplerate than each entry behind it, so no samplerate
occurs twice. -/
theorem fixedSampleRates_increasing (b : Build) (div : DivAssign) (S : Store)
    (s : ControlSpecification) :
    (initSpecifications b div S s).fixedSampleRates.Pairwise
        (fun x y => x.samplerate < y.samplerate) ∧
      ((initSpecifications b div S s).fixedSampleRates.map FixedSampleRate.samplerate).Nodup := by
  have h : (initSpecifications b div S s).fixedSampleRates = fixedSampleRatesInit b := rfl
  rw [h]
  unfold fixedSampleRatesInit
  cases b.VERY_SLOW_SAMPLES <;> constructor <;> norm_num

/-! ## Further facts about the tables -/

theorem fixedSampleRates_eq (b : Build) (div : DivAssign) (S : Store) (s : ControlSpecification) :
    (initSpecifications b div S s).fixedSampleRates = fixedSampleRatesInit b := rfl

theorem gain_eq (b : Build) (div : DivAssign) (S : Store) (s : ControlSpecification) :
    (initSpecifications b div S s).gain =
      [⟨10, 0.16⟩, ⟨10, 0.40⟩, ⟨10, 0.80⟩, ⟨5, 1.60⟩, ⟨2, 4.00⟩, ⟨1, 8.00⟩, ⟨1, 16.00⟩,
        ⟨1, 40.00⟩] := rfl

theorem map_length_mapIdxFrom {α : Type} (f : Nat → List α → List α) (k : Nat)
    (t : List (List α)) (h : ∀ i row, (f i row).length = row.length) :
    (mapIdxFrom f k t).map List.length = t.map List.length := by
  induction t generalizing k with
  | nil => rfl
  | cons row rows ih => simp [mapIdxFrom, h, ih]

/-- A pass over the cells keeps the shape of the table. -/
theorem map_length_mapCells {α : Type} (F : Nat → Nat → α → α) (t : List (List α)) :
    (mapCells F t).map List.length = t.map List.length := by
  unfold mapCells
  apply map_length_mapIdxFrom
  intro i row
  split
  · exact length_mapIdxFrom _ _ _
  · rfl

/-- The shape of both tables after `initSpecifications`, for two channels. -/
theorem initSpecifications_shape (b : Build) (div : DivAssign) (S : Store)
    (s : ControlSpecification) (hs : s.TwoChannels) :
    (initSpecifications b div S s).voltageScale.map List.length = [8, 8] ∧
      (initSpecifications b div S s).voltageOffset.map List.length = [8, 8] := by
  rw [initSpecifications_voltageScale, initSpecifications_voltageOffset, map_length_mapCells,
    map_length_mapCells, initDefaults_voltageScale s hs.1, initDefaults_voltageOffset s hs.2]
  exact ⟨rfl, rfl⟩

theorem samplerate_eq (b : Build) (div : DivAssign) (S : Store) (s : ControlSpecification) :
    (initSpecifications b div S s).samplerate =
      { single := { base := 1000000, max := 30000000, recordLengths := [UINT_MAX] }
        multi := { base := 1000000, max := 15000000, recordLengths := [UINT_MAX] } } := rfl

/-- The channel names of the loops are pairwise different, and different from
the name read beyond the array. -/
theorem channels_getD_inj (c d : Nat) (hc : c < 2) (h : channels.getD c "" = channels.getD d "") :
    c = d := by
  have h2 : c = 0 ∨ c = 1 := by omega
  rcases h2 with rfl | rfl
  · match d, h with
    | 0, _ => rfl
    | 1, h => exact absurd h (by decide)
    | n + 2, h =>
      have hd : channels.getD (n + 2) "" = "" := rfl
      exact absurd (hd ▸ h) (by decide)
  · match d, h with
    | 0, h => exact absurd h (by decide)
    | 1, _ => rfl
    | n + 2, h =>
      have hd : channels.getD (n + 2) "" = "" := rfl
      exact absurd (hd ▸ h) (by decide)

/-- The range names of the loops are pairwise different, and different from
the name read beyond the array. -/
theorem ranges_getD_inj (r q : Nat) (hr : r < 8) (h : ranges.getD r "" = ranges.getD q "") :
    r = q := by
  have h8 : r = 0 ∨ r = 1 ∨ r = 2 ∨ r = 3 ∨ r = 4 ∨ r = 5 ∨ r = 6 ∨ r = 7 := by omega
  rcases h8 with rfl | rfl | rfl | rfl | rfl | rfl | rfl | rfl <;>
    match q, h with
    | 0, h => first | rfl | exact absurd h (by decide)
    | 1, h => first | rfl | exact absurd h (by decide)
    | 2, h => first | rfl | exact absurd h (by decide)
    | 3, h => first | rfl | exact absurd h (by decide)
    | 4, h => first | rfl | exact absurd h (by decide)
    | 5, h => first | rfl | exact absurd h (by decide)
    | 6, h => first | rfl | exact absurd h (by decide)
    | 7, h => first | rfl | exact absurd h (by decide)
    | n + 8, h =>
      have hd : ranges.getD (n + 8) "" = "" := rfl
      exact absurd (hd ▸ h) (by decide)

/-- Two cells of the loops read the same gain key only when they are the same cell. -/
theorem gainKey_inj (c r d q : Nat) (hc : c < 2) (hr : r < 8) (h : gainKey c r = gainKey d q) :
    c = d ∧ r = q := by
  unfold gainKey at h
  simp only [List.cons.injEq, true_and, and_true] at h
  exact ⟨channels_getD_inj c d hc h.1, ranges_getD_inj r q hr h.2⟩

/-- Two cells of the loops read the same offset key only when they are the same cell. -/
theorem offsetKey_inj (c r d q : Nat) (hc : c < 2) (hr : r < 8)
    (h : offsetKey c r = offsetKey d q) : c = d ∧ r = q := by
  unfold offsetKey at h
  simp only [List.cons.injEq, true_and, and_true] at h
  exact ⟨channels_getD_inj c d hc h.1, ranges_getD_inj r q hr h.2⟩

theorem gainKey_ne_offsetKey (c r d q : Nat) : gainKey c r ≠ offsetKey d q := by
  simp [gainKey, offsetKey]

/-- The result of `initSpecifications` has two channels when the argument has. -/
theorem initSpecifications_twoChannels (b : Build) (div : DivAssign) (S : Store)
    (s : ControlSpecification) (hs : s.TwoChannels) :
    (initSpecifications b div S s).TwoChannels := by
  have h := initSpecifications_shape b div S s hs
  constructor
  · have h1 := congrArg List.length h.1
    simpa using h1
  · have h2 := congrArg List.length h.2
    simpa using h2

/-- The result of `initSpecifications` on a specification of two channels,
with every assigned member spelled out. -/
theorem initSpecifications_eq (b : Build) (div : DivAssign) (S : Store)
    (s : ControlSpecification) (hs : s.TwoChannels) :
    initSpecifications b div S s =
      initTables b
        { s with
          bufferDividers := [1000, 1, 1]
          voltageScale :=
            mapCells (fun c r => gainFn div (storedGain S c r)) [theoretical, theoretical]
          voltageOffset :=
            mapCells (fun c r => offsetFn (storedOffset S c r))
              [[0, 0, 0, 0, 0, 0, 0, 0], [0, 0, 0, 0, 0, 0, 0, 0]] } := by
  unfold initSpecifications
  rw [calibrationOverlay_eq, initDefaults_voltageScale s hs.1, initDefaults_voltageOffset s hs.2]
  rfl

/-! ## The claims on the tables, the rates and the models -/

/-- C11. Oversampling threshold: every entry of fixedSampleRates has a
downsampling of at least 1; an entry with a samplerate of 10 MHz or more has
downsampling 1 and a sample id equal to the samplerate divided by 1 MHz; an
entry with a samplerate below 10 MHz has a downsampling above 1. -/
theorem oversampling_threshold (b : Build) (div : DivAssign) (S : Store)
    (s : ControlSpecification) (e : FixedSampleRate)
    (he : e ∈ (initSpecifications b div S s).fixedSampleRates) :
    1 ≤ e.downsampling ∧
      (10000000 ≤ e.samplerate → e.downsampling = 1 ∧ (e.id : ℚ) = e.samplerate / 1000000) ∧
      (e.samplerate < 10000000 → 1 < e.downsampling) := by
  rw [fixedSampleRates_eq] at he
  unfold fixedSampleRatesInit at he
  cases hb : b.VERY_SLOW_SAMPLES
  · simp only [hb, if_false, Bool.false_eq_true, List.nil_append, List.mem_cons,
      List.mem_singleton, List.not_mem_nil, or_false] at he
    rcases he with h | h | h | h | h | h | h | h | h | h | h | h | h | h | h <;>
      subst h <;> norm_num
  · simp only [hb, if_true, List.cons_append, List.nil_append, List.mem_cons,
      List.mem_singleton, List.not_mem_nil, or_false] at he
    rcases he with h | h | h | h | h | h | h | h | h | h | h | h | h | h | h | h | h | h <;>
      subst h <;> norm_num

theorem oversampling_threshold_witness :
    1 ≤ 50 ∧ ((10000000 : ℚ) ≤ 200000 → 50 = 1 ∧ ((10 : Nat) : ℚ) = 200000 / 1000000) ∧
      ((200000 : ℚ) < 10000000 → 1 < 50) :=
  oversampling_threshold Build.default divDouble Store.empty (ControlSpecification.new 2)
    ⟨200000, 10, 50⟩ (by simp [fixedSampleRates_eq, fixedSampleRatesInit, Build.default])

/-- C12. Table shape: for every store and every specification of two channels,
the rows voltageScale[0], voltageScale[1], voltageOffset[0], voltageOffset[1]
have 8 entries when the overlay loops start and after initSpecifications, the
gain table has 8 entries, and every element voltageScale[ch][iii] and
voltageOffset[ch][iii] with ch < 2 and iii < 8 exists. -/
theorem table_shape (b : Build) (div : DivAssign) (S : Store) (s : ControlSpecification)
    (hs : s.TwoChannels) :
    (initDefaults s).voltageScale.map List.length = [8, 8] ∧
      (initDefaults s).voltageOffset.map List.length = [8, 8] ∧
      (initSpecifications b div S s).voltageScale.map List.length = [8, 8] ∧
      (initSpecifications b div S s).voltageOffset.map List.length = [8, 8] ∧
      (initSpecifications b div S s).gain.length = 8 ∧
      (∀ ch iii, ch < 2 → iii < 8 →
        (cell? (initDefaults s).voltageScale ch iii).isSome = true ∧
        (cell? (initDefaults s).voltageOffset ch iii).isSome = true ∧
        (cell? (initSpecifications b div S s).voltageScale ch iii).isSome = true ∧
        (cell? (initSpecifications b div S s).voltageOffset ch iii).isSome = true) := by
  refine ⟨?_, ?_, (initSpecifications_shape b div S s hs).1,
    (initSpecifications_shape b div S s hs).2, rfl, ?_⟩
  · rw [initDefaults_voltageScale s hs.1]; rfl
  · rw [initDefaults_voltageOffset s hs.2]; rfl
  · intro ch iii hc hr
    rw [initDefaults_voltageScale s hs.1, initDefaults_voltageOffset s hs.2,
      cell?_theoretical ch iii hc hr, cell?_zero ch iii hc hr,
      cell?_voltageScale b div S s hs.1 ch iii hc hr,
      cell?_voltageOffset b div S s hs.2 ch iii hc hr]
    exact ⟨rfl, rfl, rfl, rfl⟩

theorem table_shape_witness :
    (initSpecifications Build.default divDouble exampleStore
        (ControlSpecification.new 2)).voltageScale.map List.length = [8, 8] :=
  (table_shape Build.default divDouble exampleStore (ControlSpecification.new 2)
    ⟨rfl, rfl⟩).2.2.1

/-- C13. The theoretical values follow from the gain table and the gain errors
noted in the file: after initSpecifications with an empty store on a
specification of two channels, for every c < 2 and i < 8 the gain table has an
entry (hwGain, volts) at i and voltageScale[c][i] is exactly
25 * hwGain * volts * k(hwGain), with k(10) = 1, k(5) = 101/100 and
k(2) = k(1) = 99/100. -/
theorem theoretical_from_gain (b : Build) (div : DivAssign) (s : ControlSpecification)
    (c i : Nat) (hs : s.voltageScale.length = 2) (hc : c < 2) (hi : i < 8) :
    ∃ g : ControlSpecificationGainLevel,
      (initSpecifications b div Store.empty s).gain[i]? = some g ∧
        cell? (initSpecifications b div Store.empty s).voltageScale c i =
          some (25 * (g.gainIndex : ℚ) * g.gainSteps * overallGain g.gainIndex) ∧
        overallGain 10 = 1 ∧ overallGain 5 = 101 / 100 ∧ overallGain 2 = 99 / 100 ∧
        overallGain 1 = 99 / 100 := by
  rw [cell?_voltageScale b div Store.empty s hs c i hc hi, gain_eq]
  have h0 : storedGain Store.empty c i = 0 := rfl
  rw [h0, gainFn_zero]
  have h8 : i = 0 ∨ i = 1 ∨ i = 2 ∨ i = 3 ∨ i = 4 ∨ i = 5 ∨ i = 6 ∨ i = 7 := by omega
  rcases h8 with rfl | rfl | rfl | rfl | rfl | rfl | rfl | rfl <;>
    refine ⟨_, rfl, ?_, rfl, rfl, rfl, rfl⟩ <;>
    norm_num [theoretical, overallGain]

theorem theoretical_from_gain_witness :
    ∃ g : ControlSpecificationGainLevel,
      (initSpecifications Build.default divDouble Store.empty
          (ControlSpecification.new 2)).gain[3]? = some g ∧
        cell? (initSpecifications Build.default divDouble Store.empty
            (ControlSpecification.new 2)).voltageScale 1 3 =
          some (25 * (g.gainIndex : ℚ) * g.gainSteps * overallGain g.gainIndex) ∧
        overallGain 10 = 1 ∧ overallGain 5 = 101 / 100 ∧ overallGain 2 = 99 / 100 ∧
        overallGain 1 = 99 / 100 :=
  theoretical_from_gain Build.default divDouble (ControlSpecification.new 2) 1 3 rfl
    (by decide) (by decide)

/-- C14. The gain table is aligned with the range names: for every i < 8 the
entry gain[i] exists, ranges[i] names a voltage of mv millivolts and the voltage
step of gain[i] is 8 divisions of it, 8 * mv / 1000 V; the range names read
20, 50, 100, 200, 500, 1000, 2000, 5000; the voltage steps are strictly
increasing and the hardware gains are non-increasing along the table. -/
theorem gain_table_aligned (b : Build) (div : DivAssign) (S : Store)
    (s : ControlSpecification) :
    (∀ i, i < 8 → ∃ (g : ControlSpecificationGainLevel) (mv : Nat),
        (initSpecifications b div S s).gain[i]? = some g ∧
          (ranges[i]?).bind rangeMillivolts = some mv ∧
          g.gainSteps = 8 * (mv : ℚ) / 1000) ∧
      ranges.map rangeMillivolts =
        [some 20, some 50, some 100, some 200, some 500, some 1000, some 2000, some 5000] ∧
      (initSpecifications b div S s).gain.map ControlSpecificationGainLevel.gainSteps =
        [0.16, 0.40, 0.80, 1.60, 4.00, 8.00, 16.00, 40.00] ∧
      (initSpecifications b div S s).gain.Pairwise (fun x y => x.gainSteps < y.gainSteps) ∧
      (initSpecifications b div S s).gain.Pairwise (fun x y => y.gainIndex ≤ x.gainIndex) := by
  rw [gain_eq]
  refine ⟨?_, by decide, by simp, by norm_num, by simp⟩
  intro i hi
  have h8 : i = 0 ∨ i = 1 ∨ i = 2 ∨ i = 3 ∨ i = 4 ∨ i = 5 ∨ i = 6 ∨ i = 7 := by omega
  rcases h8 with rfl | rfl | rfl | rfl | rfl | rfl | rfl | rfl
  · exact ⟨_, 20, rfl, by decide, by norm_num⟩
  · exact ⟨_, 50, rfl, by decide, by norm_num⟩
  · exact ⟨_, 100, rfl, by decide, by norm_num⟩
  · exact ⟨_, 200, rfl, by decide, by norm_num⟩
  · exact ⟨_, 500, rfl, by decide, by norm_num⟩
  · exact ⟨_, 1000, rfl, by decide, by norm_num⟩
  · exact ⟨_, 2000, rfl, by decide, by norm_num⟩
  · exact ⟨_, 5000, rfl, by decide, by norm_num⟩

theorem gain_table_aligned_witness :
    ∃ (g : ControlSpecificationGainLevel) (mv : Nat),
      (initSpecifications Build.default divDouble Store.empty
          (ControlSpecification.new 2)).gain[4]? = some g ∧
        (ranges[4]?).bind rangeMillivolts = some mv ∧ g.gainSteps = 8 * (mv : ℚ) / 1000 :=
  (gain_table_aligned Build.default divDouble Store.empty (ControlSpecification.new 2)).1 4
    (by decide)

/-- C15, as stated, fails: in the default build the table fixedSampleRates has
an entry, the last one, with the samplerate 48e6, above samplerate.single.max. -/
theorem rate_above_single_max :
    ∃ e ∈ (initSpecifications Build.default divDouble Store.empty
        (ControlSpecification.new 2)).fixedSampleRates,
      e.samplerate = 48000000 ∧
        (initSpecifications Build.default divDouble Store.empty
          (ControlSpecification.new 2)).samplerate.single.max < e.samplerate := by
  refine ⟨⟨48000000, 48, 1⟩, ?_, rfl, ?_⟩
  · simp [fixedSampleRates_eq, fixedSampleRatesInit, Build.default]
  · rw [samplerate_eq]
    norm_num

/-- C15, amended. Every samplerate in fixedSampleRates other than 48e6 is at
most the declared single-channel maximum samplerate.single.max, which is 30e6;
the 48 MS/s setting does appear in the table, as its last entry, and it is the
only entry above that maximum. -/
theorem rates_within_single_max (b : Build) (div : DivAssign) (S : Store)
    (s : ControlSpecification) :
    (initSpecifications b div S s).samplerate.single.max = 30000000 ∧
      (∀ e ∈ (initSpecifications b div S s).fixedSampleRates, e.samplerate ≠ 48000000 →
        e.samplerate ≤ (initSpecifications b div S s).samplerate.single.max) ∧
      (initSpecifications b div S s).fixedSampleRates.getLast? = some ⟨48000000, 48, 1⟩ ∧
      ratesAbove (initSpecifications b div S s).samplerate.single.max
          (initSpecifications b div S s).fixedSampleRates = [⟨48000000, 48, 1⟩] := by
  rw [samplerate_eq, fixedSampleRates_eq]
  refine ⟨rfl, ?_, ?_, ?_⟩
  · intro e he hne
    unfold fixedSampleRatesInit at he
    cases hb : b.VERY_SLOW_SAMPLES
    · simp only [hb, if_false, Bool.false_eq_true, List.nil_append, List.mem_cons,
        List.mem_singleton, List.not_mem_nil, or_false] at he
      rcases he with h | h | h | h | h | h | h | h | h | h | h | h | h | h | h <;>
        subst h <;> first | exact absurd rfl hne | norm_num
    · simp only [hb, if_true, List.cons_append, List.nil_append, List.mem_cons,
        List.mem_singleton, List.not_mem_nil, or_false] at he
      rcases he with h | h | h | h | h | h | h | h | h | h | h | h | h | h | h | h | h | h <;>
        subst h <;> first | exact absurd rfl hne | norm_num
  · unfold fixedSampleRatesInit
    cases b.VERY_SLOW_SAMPLES <;> rfl
  · unfold ratesAbove fixedSampleRatesInit
    cases b.VERY_SLOW_SAMPLES <;> norm_num [List.filter]

theorem rates_within_single_max_witness :
    (30000000 : ℚ) ≤ (initSpecifications Build.default divDouble Store.empty
      (ControlSpecification.new 2)).samplerate.single.max :=
  (rates_within_single_max Build.default divDouble Store.empty
    (ControlSpecification.new 2)).2.1 ⟨30000000, 30, 1⟩
    (by simp [fixedSampleRates_eq, fixedSampleRatesInit, Build.default]) (by norm_num)

/-- C16. Pre-firmware identity uniqueness: in every build, any two of the
static model instances have different pre-firmware (vendorId, productId) pairs. -/
theorem noFirmware_identity_unique (ids : ModelIDs) (b : Build) (div : DivAssign) (S : Store) :
    (modelInstances ids b div S).Pairwise (fun m n => m.noFirmware ≠ n.noFirmware) ∧
      ((modelInstances ids b div S).map DSOModel.noFirmware).Nodup := by
  unfold modelInstances
  cases b.LCSOFT_TEST_BOARD <;>
    simp [ModelDSO6022BE, ModelDSO6022BL, ModelDSO2020, ModelEzUSB, ModelSaleae,
      DSOModel.noFirmware]

/-- C17. Frame of a single calibration entry: when two stores differ at most in
the gain entry of (c, r), the two specifications initSpecifications produces
agree in every field other than voltageScale, their scale tables have the same
shape, and they agree in every element of voltageScale other than [c][r]; when
the stores differ at most in the offset entry of (c, r), the same holds with
voltageOffset in the place of voltageScale. -/
theorem single_entry_frame (b : Build) (div : DivAssign) (S T : Store)
    (s : ControlSpecification) (c r : Nat) :
    ((∀ k, k ≠ gainKey c r → S k = T k) →
        initSpecifications b div T s =
            { initSpecifications b div S s with
              voltageScale := (initSpecifications b div T s).voltageScale } ∧
          (initSpecifications b div T s).voltageScale.map List.length =
            (initSpecifications b div S s).voltageScale.map List.length ∧
          ∀ d q, (d, q) ≠ (c, r) →
            cell? (initSpecifications b div T s).voltageScale d q =
              cell? (initSpecifications b div S s).voltageScale d q) ∧
      ((∀ k, k ≠ offsetKey c r → S k = T k) →
        initSpecifications b div T s =
            { initSpecifications b div S s with
              voltageOffset := (initSpecifications b div T s).voltageOffset } ∧
          (initSpecifications b div T s).voltageOffset.map List.length =
            (initSpecifications b div S s).voltageOffset.map List.length ∧
          ∀ d q, (d, q) ≠ (c, r) →
            cell? (initSpecifications b div T s).voltageOffset d q =
              cell? (initSpecifications b div S s).voltageOffset d q) := by
  constructor
  · intro h
    have ho : storedOffset S = storedOffset T := by
      funext d q
      unfold storedOffset
      rw [h _ (gainKey_ne_offsetKey c r d q).symm]
    refine ⟨?_, ?_, ?_⟩
    · unfold initSpecifications initTables
      simp only [calibrationOverlay_eq, ho]
    · simp only [initSpecifications_voltageScale, map_length_mapCells]
    · intro d q hne
      simp only [initSpecifications_voltageScale, cell?_mapCells]
      by_cases hin : d < 2 ∧ q < 8
      · have hk : gainKey d q ≠ gainKey c r := by
          intro hk
          have := gainKey_inj d q c r hin.1 hin.2 hk
          exact hne (by rw [this.1, this.2])
        have hg : storedGain S d q = storedGain T d q := by
          unfold storedGain
          rw [h _ hk]
        rw [hg]
      · simp only [hin, if_false]
  · intro h
    have hg : storedGain S = storedGain T := by
      funext d q
      unfold storedGain
      rw [h _ (gainKey_ne_offsetKey d q c r)]
    refine ⟨?_, ?_, ?_⟩
    · unfold initSpecifications initTables
      simp only [calibrationOverlay_eq, hg]
    · simp only [initSpecifications_voltageOffset, map_length_mapCells]
    · intro d q hne
      simp only [initSpecifications_voltageOffset, cell?_mapCells]
      by_cases hin : d < 2 ∧ q < 8
      · have hk : offsetKey d q ≠ offsetKey c r := by
          intro hk
          have := offsetKey_inj d q c r hin.1 hin.2 hk
          exact hne (by rw [this.1, this.2])
        have ho : storedOffset S d q = storedOffset T d q := by
          unfold storedOffset
          rw [h _ hk]
        rw [ho]
      · simp only [hin, if_false]

theorem single_entry_frame_witness :
    cell? (initSpecifications Build.default divDouble gainTwoStore
        (ControlSpecification.new 2)).voltageScale 0 1 =
      cell? (initSpecifications Build.default divDouble Store.empty
        (ControlSpecification.new 2)).voltageScale 0 1 :=
  ((single_entry_frame Build.default divDouble Store.empty gainTwoStore
    (ControlSpecification.new 2) 0 0).1
      (fun k hk => by simp [gainTwoStore, Store.insert, Store.empty, hk])).2.2 0 1 (by decide)

/-- C18. Rate consistency: in the default build every entry of fixedSampleRates
satisfies samplerate * downsampling = id * 1 000 000. -/
theorem rate_consistency (b : Build) (div : DivAssign) (S : Store) (s : ControlSpecification)
    (hb : b.VERY_SLOW_SAMPLES = false) (e : FixedSampleRate)
    (he : e ∈ (initSpecifications b div S s).fixedSampleRates) :
    e.samplerate * e.downsampling = e.id * 1000000 := by
  rw [fixedSampleRates_eq] at he
  unfold fixedSampleRatesInit at he
  simp only [hb, if_false, Bool.false_eq_true, List.nil_append,
    List.mem_cons, List.mem_singleton, List.not_mem_nil, or_false] at he
  rcases he with h | h | h | h | h | h | h | h | h | h | h | h | h | h | h <;>
    subst h <;> norm_num

theorem rate_consistency_witness :
    (500000 : ℚ) * ((20 : Nat) : ℚ) = ((10 : Nat) : ℚ) * 1000000 :=
  rate_consistency Build.default divDouble Store.empty (ControlSpecification.new 2) rfl
    ⟨500000, 10, 20⟩ (by simp [fixedSampleRates_eq, fixedSampleRatesInit, Build.default])

/-- C19. initSpecifications is determined by the store: for every store and any
two specifications of two channels, the results agree in every member the
function assigns (bufferDividers, voltageScale, voltageOffset, gain,
samplerate, fixedSampleRates, couplings, triggerModes, fixedUSBinLength,
calfreqSteps, hasCalibrationEEPROM), so they are equal up to the channel count
given at construction; running initSpecifications on its own result gives that
result again; and the models 6022BE, 6022BL and 2020 get the same
specification. -/
theorem determined_by_store (b : Build) (div : DivAssign) (S : Store) :
    (∀ s1 s2 : ControlSpecification, s1.TwoChannels → s2.TwoChannels →
        initSpecifications b div S s1 =
            { initSpecifications b div S s2 with channels := s1.channels } ∧
          (initSpecifications b div S s1).bufferDividers =
            (initSpecifications b div S s2).bufferDividers ∧
          (initSpecifications b div S s1).voltageScale =
            (initSpecifications b div S s2).voltageScale ∧
          (initSpecifications b div S s1).voltageOffset =
            (initSpecifications b div S s2).voltageOffset ∧
          (initSpecifications b div S s1).gain = (initSpecifications b div S s2).gain ∧
          (initSpecifications b div S s1).samplerate =
            (initSpecifications b div S s2).samplerate ∧
          (initSpecifications b div S s1).fixedSampleRates =
            (initSpecifications b div S s2).fixedSampleRates ∧
          (initSpecifications b div S s1).couplings =
            (initSpecifications b div S s2).couplings ∧
          (initSpecifications b div S s1).triggerModes =
            (initSpecifications b div S s2).triggerModes ∧
          (initSpecifications b div S s1).fixedUSBinLength =
            (initSpecifications b div S s2).fixedUSBinLength ∧
          (initSpecifications b div S s1).calfreqSteps =
            (initSpecifications b div S s2).calfreqSteps ∧
          (initSpecifications b div S s1).hasCalibrationEEPROM =
            (initSpecifications b div S s2).hasCalibrationEEPROM) ∧
      (∀ s : ControlSpecification, s.TwoChannels →
        initSpecifications b div S (initSpecifications b div S s) =
          initSpecifications b div S s) ∧
      (∀ ids : ModelIDs,
        (ModelDSO6022BE ids b div S).specification = (ModelDSO6022BL ids b div S).specification ∧
          (ModelDSO6022BL ids b div S).specification =
            (ModelDSO2020 ids b div S).specification) := by
  refine ⟨?_, ?_, fun _ => ⟨rfl, rfl⟩⟩
  · intro s1 s2 h1 h2
    rw [initSpecifications_eq b div S s1 h1, initSpecifications_eq b div S s2 h2]
    exact ⟨rfl, rfl, rfl, rfl, rfl, rfl, rfl, rfl, rfl, rfl, rfl, rfl⟩
  · intro s hs
    have h2 := initSpecifications_twoChannels b div S s hs
    rw [initSpecifications_eq b div S _ h2, initSpecifications_eq b div S s hs]
    rfl

theorem determined_by_store_witness :
    initSpecifications Build.default divDouble exampleStore
        (initSpecifications Build.default divDouble exampleStore (ControlSpecification.new 2)) =
      initSpecifications Build.default divDouble exampleStore (ControlSpecification.new 2) :=
  (determined_by_store Build.default divDouble exampleStore).2.1 (ControlSpecification.new 2)
    ⟨rfl, rfl⟩

end Hantek
